import Mathlib

/-!
Verification of the rose-cache wrapper (package `rcache`, file `cache.go`).

The store is modelled as an association list from keys to byte payloads;
the external engine (bigcache) is out of scope and is modelled abstractly
by its contract: `engineGet` returns the stored bytes or the engine's own
not-found sentinel, `engineSet` stores unconditionally, `engineDelete`
removes the key.  Bytes are `List Nat`; Go's multi-value returns
`(T, error)` are modelled as `T × Option CErr`, where `none` is the nil
error and the zero value accompanies a non-nil error, as in Go.

Operations present in `src/cache.go` (`Get`, `GetString`, `Set`,
`SetString`, `SetValue`) are translated directly from that file.  The
expiration overlay (`SetEX`, the envelope-decoding `Get`, `Has`,
`Delete` with validation) is exercised by the repository's tests but its
implementation is not under `src/`; those operations are modelled from
the spec and say so in their doc comments.
-/

namespace Rcache

/-- Raw byte payloads, as stored by the engine. -/
abbrev Bytes := List Nat

/-- Error values that can flow out of the wrapper.  `engineNotFound` is the
engine's own not-found sentinel (bigcache's `ErrEntryNotFound`);
`keyEmpty`, `keyNotFound`, `valueEmpty`, `nilCache` are the error taxonomy
this layer is specified to own; `goError msg` is a dynamically built Go
error with message `msg` (used for the wrapped marshal failure). -/
inductive CErr where
  | keyEmpty
  | keyNotFound
  | valueEmpty
  | nilCache
  | engineNotFound
  | goError (msg : String)
  deriving DecidableEq, Repr

/-- First-match lookup in an association list keyed by strings. -/
def lookupA {α : Type} : List (String × α) → String → Option α
  | [], _ => none
  | p :: rest, key => if key = p.1 then some p.2 else lookupA rest key

/-- Remove every binding of a key from an association list. -/
def removeA {α : Type} : List (String × α) → String → List (String × α)
  | [], _ => []
  | p :: rest, key => if p.1 = key then removeA rest key else p :: removeA rest key

/-- The engine's key space, modelled as an association list. -/
abbrev Engine := List (String × Bytes)

/-- Engine contract `Get(key) -> (bytes, found-or-error)`: the stored bytes
with a nil error when the key is present, otherwise the engine's not-found
sentinel with nil bytes. -/
def engineGet (e : Engine) (key : String) : Bytes × Option CErr :=
  match lookupA e key with
  | some v => (v, none)
  | none => ([], some .engineNotFound)

/-- Engine contract `Set(key, bytes) -> error-or-nil`: stores the entry
(newest binding shadows older ones). -/
def engineSet (e : Engine) (key : String) (value : Bytes) : Engine :=
  (key, value) :: e

/-- Engine contract `Delete(key) -> error-or-nil`: removes the key. -/
def engineDelete (e : Engine) (key : String) : Engine :=
  removeA e key

/-- Go's `[]byte(s)`: the bytes of a string (one code point per cell in this
model; the claims only need the conversion to be a fixed function). -/
def strBytes (s : String) : Bytes :=
  s.data.map Char.toNat

/-- Go's `string(b)`: the string decoding of a byte slice. -/
def bytesStr (b : Bytes) : String :=
  String.mk (b.map Char.ofNat)

/-- The `Cache` struct of `src/cache.go` lines 19-21: it holds exactly one
field, the engine handle, and nothing else (in particular no mutex). -/
structure Cache where
  cache : Engine
  deriving DecidableEq, Repr

/-- `Cache.Get` from `src/cache.go` lines 35-42: forwards the key to the
engine and propagates the engine's error unchanged; no validation and no
error mapping happen here. -/
def Cache.Get (c : Cache) (key : String) : Bytes × Option CErr :=
  engineGet c.cache key

/-- `Cache.GetString` from `src/cache.go` lines 45-52: calls `Get`; on error
returns the empty string with that error, otherwise the string decoding of
the bytes. -/
def Cache.GetString (c : Cache) (key : String) : String × Option CErr :=
  match c.Get key with
  | (_, some err) => ("", some err)
  | (v, none) => (bytesStr v, none)

/-- `Cache.Set` from `src/cache.go` lines 74-76: forwards key and value to
the engine unconditionally; the state-passing result pairs the new cache
with the (always nil) engine error. -/
def Cache.Set (c : Cache) (key : String) (value : Bytes) : Cache × Option CErr :=
  (⟨engineSet c.cache key value⟩, none)

/-- `Cache.SetString` from `src/cache.go` lines 79-81: stores the byte
conversion of the string directly via the engine. -/
def Cache.SetString (c : Cache) (key value : String) : Cache × Option CErr :=
  (⟨engineSet c.cache key (strBytes value)⟩, none)

/-- A Go `interface\x7b\x7d` value as dispatched on by `SetValue`: a string, a
byte slice, or anything else.  The `other` case carries the outcome of
`json.Marshal` on that value (the standard library is external to the
repository, so its result is data of the model). -/
inductive GoValue where
  | str (s : String)
  | bytes (b : Bytes)
  | other (marshal : Except String Bytes)

/-- `Cache.SetValue` from `src/cache.go` lines 84-101: a string is stored as
its raw bytes, a byte slice as-is, anything else is JSON-marshalled first;
a marshal failure is returned wrapped as
`failed to marshal data: cause` before any engine write. -/
def Cache.SetValue (c : Cache) (key : String) (value : GoValue) : Cache × Option CErr :=
  match value with
  | .str s => (⟨engineSet c.cache key (strBytes s)⟩, none)
  | .bytes b => (⟨engineSet c.cache key b⟩, none)
  | .other m =>
    match m with
    | .ok data => (⟨engineSet c.cache key data⟩, none)
    | .error msg => (c, some (.goError ("failed to marshal data: " ++ msg)))

/-- A value as the expiration overlay stores it in the engine: either the
raw bytes of a plain `Set`, or the serialized envelope of a `SetEX`
carrying the payload and the absolute expiry instant.  Decoding a
retrieved value as an envelope succeeds exactly on `envelope` (the spec's
known raw/envelope wire ambiguity is abstracted away by this sum type). -/
inductive StoredVal where
  | raw (b : Bytes)
  | envelope (payload : Bytes) (expiresAt : Nat)
  deriving DecidableEq, Repr

/-- The engine's key space as seen through the expiration overlay. -/
abbrev OEngine := List (String × StoredVal)

/-- Modelled from the spec: `SetEX` is exercised by the repository's tests
but absent from `src/`.  Spec 4.2: validate key and value non-empty
exactly as 4.1, compute `expires_at = now + ttl`, store the envelope via
`Set`.  Time is the explicit parameter `now`. -/
def setEX (e : OEngine) (now : Nat) (key : String) (value : Bytes) (ttl : Nat) :
    OEngine × Option CErr :=
  if key = "" then (e, some .keyEmpty)
  else if value = [] then (e, some .valueEmpty)
  else ((key, .envelope value (now + ttl)) :: e, none)

/-- Modelled from the spec: the overlay's plain `Set` with the 4.1
validations (`KeyEmpty`, `ValueEmpty`), storing the raw payload. -/
def oSet (e : OEngine) (key : String) (value : Bytes) : OEngine × Option CErr :=
  if key = "" then (e, some .keyEmpty)
  else if value = [] then (e, some .valueEmpty)
  else ((key, .raw value) :: e, none)

/-- Modelled from the spec: `Delete` with the empty-key check, forwarding
the removal to the engine. -/
def oDelete (e : OEngine) (key : String) : OEngine × Option CErr :=
  if key = "" then (e, some .keyEmpty)
  else (removeA e key, none)

/-- Modelled from the spec: the expiration overlay's `Get`, absent from
`src/`.  Empty key fails with `KeyEmpty`; an absent entry reports
`KeyNotFound`; a raw value is returned unchanged; an envelope whose
`expires_at` satisfies `now >= expires_at` triggers a best-effort delete
of the key and reports `KeyNotFound`, otherwise the payload is returned.
The returned state carries the lazy delete. -/
def oGet (e : OEngine) (now : Nat) (key : String) :
    OEngine × (Bytes × Option CErr) :=
  if key = "" then (e, ([], some .keyEmpty))
  else
    match lookupA e key with
    | none => (e, ([], some .keyNotFound))
    | some (.raw b) => (e, (b, none))
    | some (.envelope p t) =>
      if t ≤ now then (removeA e key, ([], some .keyNotFound))
      else (e, (p, none))

/-- Modelled from the spec: `Has` performs a Get-equivalent probe and
collapses every error (not-found or otherwise) to `false`; it returns a
plain boolean and can never itself fail. -/
def Has (e : OEngine) (now : Nat) (key : String) : Bool :=
  ((oGet e now key).2.2).isNone

theorem lookupA_removeA_self {α : Type} (l : List (String × α)) (key : String) :
    lookupA (removeA l key) key = none := by
  induction l with
  | nil => rfl
  | cons p rest ih =>
    by_cases h : p.1 = key
    · simp [removeA, h, ih]
    · have h' : ¬ key = p.1 := fun hk => h hk.symm
      simp [removeA, h, lookupA, h', ih]

/-- C1: after `SetEX(K, P, TTL)` with non-empty key and payload and TTL > 0,
the call reports success; a `Get(K)` at any instant before `now + TTL`
returns exactly P with a nil error; a `Get(K)` at any instant at or after
`now + TTL` returns the `KeyNotFound` error and the key has been deleted
from the resulting state (the lazy best-effort delete). -/
theorem setEX_get_ttl (e : Rcache.OEngine) (now t : Nat) (key : String)
    (p : Rcache.Bytes) (ttl : Nat)
    (hk : key ≠ "") (hp : p ≠ []) (ht : 0 < ttl) :
    (Rcache.setEX e now key p ttl).2 = none ∧
    (t < now + ttl →
      (Rcache.oGet (Rcache.setEX e now key p ttl).1 t key).2 = (p, none)) ∧
    (now + ttl ≤ t →
      (Rcache.oGet (Rcache.setEX e now key p ttl).1 t key).2 =
        ([], some .keyNotFound) ∧
      Rcache.lookupA (Rcache.oGet (Rcache.setEX e now key p ttl).1 t key).1 key =
        none) := by
  refine ⟨by simp [Rcache.setEX, hk, hp], ?_, ?_⟩
  · intro hlt
    have hnle : ¬ now + ttl ≤ t := Nat.not_le.mpr hlt
    simp [Rcache.setEX, hk, hp, Rcache.oGet, Rcache.lookupA, hnle]
  · intro hle
    constructor
    · simp [Rcache.setEX, hk, hp, Rcache.oGet, Rcache.lookupA, hle]
    · simp [Rcache.setEX, hk, hp, Rcache.oGet, Rcache.lookupA, hle,
        Rcache.removeA, Rcache.lookupA_removeA_self]

/-- C1 witness: at key "a", payload [1], TTL 2 set at time 0, a read at
time 1 returns the payload and a read at time 2 reports `KeyNotFound`. -/
theorem setEX_get_ttl_witness :
    (Rcache.oGet (Rcache.setEX [] 0 "a" [1] 2).1 1 "a").2 = ([1], none) ∧
    (Rcache.oGet (Rcache.setEX [] 0 "a" [1] 2).1 2 "a").2 =
      ([], some .keyNotFound) :=
  ⟨(setEX_get_ttl [] 0 1 "a" [1] 2 (by decide) (by decide) (by decide)).2.1
      (by decide),
   ((setEX_get_ttl [] 0 2 "a" [1] 2 (by decide) (by decide) (by decide)).2.2
      (by decide)).1⟩

/-- C2: the claim says `Get("")` and `Set("", P)` fail with `KeyEmpty` and
modify nothing.  The code in `src/cache.go` has no empty-key check: on a
fresh cache, `Get("")` forwards to the engine and returns the engine's own
not-found sentinel (not `KeyEmpty`), and `Set("", [1])` stores the entry
under the empty key and reports success. -/
theorem get_set_empty_key_eval :
    (Rcache.Cache.mk []).Get "" = ([], some .engineNotFound) ∧
    (Rcache.Cache.mk []).Set "" [1] = (Rcache.Cache.mk [("", [1])], none) := by
  exact ⟨rfl, rfl⟩

/-- C3: the claim says `Set(K, [])` fails with `ValueEmpty` and leaves the
entry for K as it was.  The code in `src/cache.go` has no empty-value
check: on a fresh cache, `Set("k", [])` stores the empty payload under
"k" and reports success, and the stored entry is then readable. -/
theorem set_empty_value_eval :
    (Rcache.Cache.mk []).Set "k" [] = (Rcache.Cache.mk [("k", [])], none) ∧
    (Rcache.Cache.mk [("k", [])]).Get "k" = ([], none) := by
  exact ⟨rfl, rfl⟩

/-- C4: for every non-empty key and non-empty payload, `Set(K, P)` succeeds
and an immediately following `Get(K)` on the resulting cache returns
exactly P with a nil error. -/
theorem set_get_roundtrip (c : Rcache.Cache) (key : String) (p : Rcache.Bytes)
    (hk : key ≠ "") (hp : p ≠ []) :
    (c.Set key p).2 = none ∧ ((c.Set key p).1).Get key = (p, none) := by
  refine ⟨rfl, ?_⟩
  simp [Rcache.Cache.Set, Rcache.Cache.Get, Rcache.engineGet, Rcache.engineSet,
    Rcache.lookupA]

/-- C4 witness: on the empty cache, `Set "a" [1]` succeeds and `Get "a"`
returns [1]. -/
theorem set_get_roundtrip_witness :
    ((Rcache.Cache.mk []).Set "a" [1]).2 = none ∧
    (((Rcache.Cache.mk []).Set "a" [1]).1).Get "a" = ([1], none) :=
  set_get_roundtrip (Rcache.Cache.mk []) "a" [1] (by decide) (by decide)

/-- C5: `Has` is a boolean (it can never return an error); it is false when
the key has no entry, true immediately after a successful `Set` or
`SetEX`, false after `Delete` and after TTL expiry, and false whenever the
underlying Get-equivalent probe reports any error. -/
theorem has_spec (e : Rcache.OEngine) (now t : Nat) (key : String)
    (p : Rcache.Bytes) (ttl : Nat)
    (hk : key ≠ "") (hp : p ≠ []) (ht : 0 < ttl) (hexp : now + ttl ≤ t) :
    (Rcache.lookupA e key = none → Rcache.Has e now key = false) ∧
    Rcache.Has (Rcache.oSet e key p).1 now key = true ∧
    Rcache.Has (Rcache.setEX e now key p ttl).1 now key = true ∧
    Rcache.Has (Rcache.oDelete e key).1 now key = false ∧
    Rcache.Has (Rcache.setEX e now key p ttl).1 t key = false ∧
    (((Rcache.oGet e now key).2.2).isSome = true →
      Rcache.Has e now key = false) := by
  have hnow : ¬ now + ttl ≤ now := by omega
  refine ⟨?_, ?_, ?_, ?_, ?_, ?_⟩
  · intro hnone
    simp [Rcache.Has, Rcache.oGet, hk, hnone]
  · simp [Rcache.Has, Rcache.oGet, Rcache.oSet, hk, hp, Rcache.lookupA]
  · simp [Rcache.Has, Rcache.oGet, Rcache.setEX, hk, hp, Rcache.lookupA, hnow]
  · simp [Rcache.Has, Rcache.oGet, Rcache.oDelete, hk,
      Rcache.lookupA_removeA_self]
  · simp [Rcache.Has, Rcache.oGet, Rcache.setEX, hk, hp, Rcache.lookupA, hexp]
  · intro hsome
    cases h : (Rcache.oGet e now key).2.2 with
    | none =>
      rw [h] at hsome
      simp at hsome
    | some err =>
      simp [Rcache.Has, h]

/-- C5 witness: on concrete states, `Has` is false on the empty store, true
right after `Set "a" [1]`, false after deleting "a", and false at time 1
for an entry set at time 0 with TTL 1. -/
theorem has_spec_witness :
    Rcache.Has ([] : Rcache.OEngine) 0 "a" = false ∧
    Rcache.Has (Rcache.oSet [] "a" [1]).1 0 "a" = true ∧
    Rcache.Has (Rcache.oDelete [("a", .raw [1])] "a").1 0 "a" = false ∧
    Rcache.Has (Rcache.setEX [] 0 "a" [1] 1).1 1 "a" = false :=
  ⟨(has_spec [] 0 1 "a" [1] 1 (by decide) (by decide) (by decide)
      (by decide)).1 rfl,
   (has_spec [] 0 1 "a" [1] 1 (by decide) (by decide) (by decide)
      (by decide)).2.1,
   (has_spec [("a", .raw [1])] 0 1 "a" [1] 1 (by decide) (by decide)
      (by decide) (by decide)).2.2.2.1,
   (has_spec [] 0 1 "a" [1] 1 (by decide) (by decide) (by decide)
      (by decide)).2.2.2.2.1⟩

/-- C6: the claim says a `Get` on a key with no live entry fails with this
layer's own `KeyNotFound` (the engine sentinel mapped to it).  The code in
`src/cache.go` propagates the engine's error unchanged: on a fresh cache,
`Get "nonexistent"` returns the engine's not-found sentinel, which is a
different error value from the layer's `KeyNotFound`. -/
theorem get_absent_key_eval :
    (Rcache.Cache.mk []).Get "nonexistent" = ([], some .engineNotFound) ∧
    Rcache.CErr.engineNotFound ≠ Rcache.CErr.keyNotFound := by
  exact ⟨rfl, by decide⟩

/-- C7: `SetValue` dispatches on the value's shape: a string is stored via
`Set` of its raw bytes, a byte slice via `Set` of itself, any other value
via `Set` of its JSON marshalling when that succeeds; when marshalling
fails with cause `msg`, `SetValue` returns the wrapped error
`failed to marshal data: msg` and the unchanged cache. -/
theorem setValue_dispatch (c : Rcache.Cache) (key s : String)
    (b : Rcache.Bytes) (m : Except String Rcache.Bytes) :
    c.SetValue key (.str s) = c.Set key (Rcache.strBytes s) ∧
    c.SetValue key (.bytes b) = c.Set key b ∧
    (∀ d, m = .ok d → c.SetValue key (.other m) = c.Set key d) ∧
    (∀ msg, m = .error msg →
      c.SetValue key (.other m) =
        (c, some (.goError ("failed to marshal data: " ++ msg)))) := by
  refine ⟨rfl, rfl, ?_, ?_⟩
  · intro d h
    subst h
    rfl
  · intro msg h
    subst h
    rfl

/-- C7 witness: a failing marshal at key "k" with cause "boom" returns the
wrapped error and the unchanged empty cache. -/
theorem setValue_dispatch_witness :
    (Rcache.Cache.mk []).SetValue "k" (.other (.error "boom")) =
      (Rcache.Cache.mk [], some (.goError ("failed to marshal data: " ++ "boom"))) :=
  (setValue_dispatch (Rcache.Cache.mk []) "k" "s" [1] (.error "boom")).2.2.2
    "boom" rfl

/-- C9: for every cache, key and value whose JSON marshalling fails with
cause `msg`, `SetValue` returns the wrapped marshal error and leaves the
cache completely unchanged: the marshalling happens before any engine
write. -/
theorem setValue_marshal_atomic (c : Rcache.Cache) (key msg : String) :
    c.SetValue key (.other (.error msg)) =
      (c, some (.goError ("failed to marshal data: " ++ msg))) := rfl

/-- C10: `SetString(K, S)` is exactly `Set(K, bytes-of-S)`; `GetString(K)`
returns the string decoding of `Get(K)`'s bytes with a nil error when
`Get` succeeds, and the empty string paired with the very same error when
`Get` fails. -/
theorem string_wrappers (c : Rcache.Cache) (key s : String) :
    c.SetString key s = c.Set key (Rcache.strBytes s) ∧
    (∀ b, c.Get key = (b, none) →
      c.GetString key = (Rcache.bytesStr b, none)) ∧
    (∀ b err, c.Get key = (b, some err) →
      c.GetString key = ("", some err)) := by
  refine ⟨rfl, ?_, ?_⟩
  · intro b h
    simp [Rcache.Cache.GetString, h]
  · intro b err h
    simp [Rcache.Cache.GetString, h]

/-- C10 witness: `GetString "a"` decodes the stored bytes of "hi" on the
cache holding them, and returns the empty string with the propagated
engine error on the empty cache. -/
theorem string_wrappers_witness :
    (Rcache.Cache.mk [("a", Rcache.strBytes "hi")]).GetString "a" =
      (Rcache.bytesStr (Rcache.strBytes "hi"), none) ∧
    (Rcache.Cache.mk []).GetString "a" = ("", some .engineNotFound) :=
  ⟨(string_wrappers (Rcache.Cache.mk [("a", Rcache.strBytes "hi")]) "a" "x").2.1
      (Rcache.strBytes "hi") (by decide),
   (string_wrappers (Rcache.Cache.mk []) "a" "x").2.2 [] .engineNotFound
      (by decide)⟩

end Rcache
